import Mathlib

/-!
Verification of the tmuxai agent core against its specification.

The Go sources are shallowly embedded: Go strings become `List Char`,
Go maps become association lists (most recent binding first, matching
map-assignment overwrite), and each fallible operation returns an
`Except`/`Option` value.  Remote MCP servers, transport construction and
the interactive widget's event stream are external collaborators; they
enter the embedding as explicit oracle parameters, so that every
definition below is an executable function of its inputs.
-/

namespace TmuxAI

/-- Go strings are modeled as lists of characters. -/
abbrev Str := List Char

/-- Coercion from Lean string literals to the `Str` model. -/
def str (s : String) : Str := s.data

/-- The ASCII single-quote character (code 39), used by several Go
format strings in the sources. -/
def quoteChar : Char := Char.ofNat 39

/-- Association-list lookup, first (most recent) binding wins.  This is
the read side of the Go map model. -/
def lookupA {β : Type} (k : Str) : List (Str × β) → Option β
  | [] => none
  | (a, b) :: rest => if a = k then some b else lookupA k rest

/-! ## MCP data model (src/internal/config.go, mcp-go client types)

`McpServer` embeds the server spec struct (fields the registry reads).
The `mcp.CallToolResult` content is either text content or some other
content kind; only the first element is ever inspected by the code. -/

structure McpServer where
  Name : Str
  URL : Str
  ServerType : Str  -- the Go field is named `Type`, a keyword in Lean
  Command : Str
  Args : List Str
  Env : List (Str × Str)

/-- One content item of a remote tool result (`mcp.TextContent` or any
other content type, which the code treats opaquely). -/
inductive McpContent where
  | text (s : Str)
  | other

/-- Embeds `mcp.CallToolResult`: the error flag and the content list. -/
structure CallToolResult where
  IsError : Bool
  Content : List McpContent

/-- Tool-call arguments (`map[string]interface{}`): passed through to the
remote call verbatim, never inspected, so an association list suffices. -/
abbrev Args := List (Str × Str)

/-- Outcome of the remote `client.CallTool` invocation: a transport-level
error (a timeout surfaces here as the context-deadline message) or a
result value. -/
inductive RemoteOutcome where
  | err (msg : Str)
  | ok (r : CallToolResult)

/-- An established connection (`*client.Client`): its observable behavior
is what the remote server answers to CallTool and ListTools. -/
structure Client where
  callToolRemote : Str → Args → RemoteOutcome
  listToolsRemote : Except Str (List Str)

/-- Embeds `McpClient` (src/unnamed/part_001): the registry, a map from
server name to established connection guarded by one RW lock. -/
structure McpClient where
  clients : List (Str × Client)

/-! ## Registry bring-up (NewMcpClient, src/unnamed/part_001 lines 21-84)

Transport construction, `Start` and `Initialize` talk to the outside
world; their success is an oracle `ConnEnv`.  `transport.NewStdio` cannot
fail (it returns no error in the source), the SSE and StreamableHTTP
constructors can. -/

structure ConnEnv where
  sseTransportOk : McpServer → Bool
  httpTransportOk : McpServer → Bool
  startOk : McpServer → Bool
  initOk : McpServer → Bool
  clientOf : McpServer → Client

/-- The transport-creation switch of `NewMcpClient`: `case "stdio"` never
fails, `case "sse"` and `case "streamable-http", "streamableHTTP",
"http"` fail when the constructor errors, and the `default` branch
(unsupported type) always falls through to `continue`. -/
def transportCreated (env : ConnEnv) (server : McpServer) : Bool :=
  if server.ServerType = str ("stdio") then
    true
  else if server.ServerType = str ("sse") then
    env.sseTransportOk server
  else if server.ServerType = str ("streamable-http") ∨ server.ServerType = str ("streamableHTTP")
      ∨ server.ServerType = str ("http") then
    env.httpTransportOk server
  else
    false

/-- One iteration of the `NewMcpClient` loop body: `continue` on
transport failure, start failure or initialize failure, otherwise the
established client. -/
def connectOne (env : ConnEnv) (server : McpServer) : Option Client :=
  if transportCreated env server then
    if env.startOk server then
      if env.initOk server then some (env.clientOf server)
      else none
    else none
  else none

/-- Embeds `NewMcpClient`: iterate over the specs, store each established
client under its server name (map assignment: the newer binding shadows
an older one of the same name), and return the registry.  No per-server
failure escapes this function. -/
def NewMcpClient (env : ConnEnv) (servers : List McpServer) : McpClient :=
  { clients := servers.foldl (fun acc server =>
      match connectOne env server with
      | some c => (server.Name, c) :: acc
      | none => acc) [] }

/-! ## Tool invocation (CallTool / ListTools, src/unnamed/part_001) -/

/-- Timeout (seconds) applied by `CallTool`: `30*time.Second`. -/
def callToolTimeoutSeconds : Nat := 30

/-- Timeout (seconds) applied by `ListTools`: `10*time.Second`. -/
def listToolsTimeoutSeconds : Nat := 10

/-- Error text produced by Go when a context deadline elapses; a timed
out remote call surfaces as `RemoteOutcome.err` carrying this text. -/
def contextDeadlineExceeded : Str := str ("context deadline exceeded")

/-- Error string of the `!exists` branches: `MCP server '%s' not found`. -/
def notFoundError (serverName : Str) : Str :=
  str ("MCP server ") ++ [quoteChar] ++ serverName ++ [quoteChar] ++ str (" not found")

/-- The name mangling in `CallTool`: `toolName = serverName + "-" + toolName`. -/
def mangledToolName (serverName toolName : Str) : Str :=
  serverName ++ str ("-") ++ toolName

/-- Error string `failed to call tool '%s' on server '%s': %v`. -/
def callFailedError (mangled serverName e : Str) : Str :=
  str ("failed to call tool ") ++ [quoteChar] ++ mangled ++ [quoteChar]
    ++ str (" on server ") ++ [quoteChar] ++ serverName ++ [quoteChar] ++ str (": ") ++ e

/-- Error string `tool execution error: %s`. -/
def toolExecError (t : Str) : Str := str ("tool execution error: ") ++ t

/-- Error string `failed to list tools for server '%s': %v`. -/
def listFailedError (serverName e : Str) : Str :=
  str ("failed to list tools for server ") ++ [quoteChar] ++ serverName ++ [quoteChar]
    ++ str (": ") ++ e

/-- Result of one `CallTool` method call: the registry after the call
(the method only ever reads `mc.clients`), the returned value or error,
and the list of remote invocations performed (mangled name, arguments). -/
structure CallOutcome where
  registryAfter : McpClient
  result : Except Str Str
  remoteCalls : List (Str × Args)

/-- Embeds `McpClient.CallTool` (src/unnamed/part_001 lines 86-127). -/
def McpClient.CallTool (mc : McpClient) (serverName toolName : Str) (arguments : Args) :
    CallOutcome :=
  match lookupA serverName mc.clients with
  | none => ⟨mc, Except.error (notFoundError serverName), []⟩
  | some client =>
    let mangled := mangledToolName serverName toolName
    match client.callToolRemote mangled arguments with
    | RemoteOutcome.err e =>
      ⟨mc, Except.error (callFailedError mangled serverName e), [(mangled, arguments)]⟩
    | RemoteOutcome.ok result =>
      if result.IsError then
        match result.Content with
        | McpContent.text t :: _ => ⟨mc, Except.error (toolExecError t), [(mangled, arguments)]⟩
        | _ => ⟨mc, Except.error (str ("tool execution error")), [(mangled, arguments)]⟩
      else
        match result.Content with
        | McpContent.text t :: _ => ⟨mc, Except.ok t, [(mangled, arguments)]⟩
        | _ => ⟨mc, Except.ok [], [(mangled, arguments)]⟩

/-- Result of one `ListTools` method call: registry after (read-only
method), returned names or error, and whether the remote call was made. -/
structure ListOutcome where
  registryAfter : McpClient
  result : Except Str (List Str)
  remoteCalled : Bool

/-- Embeds `McpClient.ListTools` (src/unnamed/part_001 lines 129-153). -/
def McpClient.ListTools (mc : McpClient) (serverName : Str) : ListOutcome :=
  match lookupA serverName mc.clients with
  | none => ⟨mc, Except.error (notFoundError serverName), false⟩
  | some client =>
    match client.listToolsRemote with
    | Except.error e => ⟨mc, Except.error (listFailedError serverName e), true⟩
    | Except.ok tools => ⟨mc, Except.ok tools, true⟩

/-! ## Classifying tool failures

The three `fmt.Errorf` sites of `CallTool` produce strings with pairwise
distinct fixed prefixes, so a caller can tell the conditions apart; a
timeout is the remote-call error whose wrapped text is the context
deadline message. -/

inductive ToolFailureKind where
  | notFound
  | timeout
  | remoteCallError
  | toolError
  deriving DecidableEq

/-- Decode which failure condition an error string of `CallTool`
reports, by its fixed prefix (and, within a remote-call failure, whether
the wrapped transport error is the context-deadline text). -/
def classifyToolError (e : Str) : Option ToolFailureKind :=
  if (str ("MCP server ") ++ [quoteChar]) <+: e then some ToolFailureKind.notFound
  else if (str ("failed to call tool ") ++ [quoteChar]) <+: e then
    if contextDeadlineExceeded <:+: e then some ToolFailureKind.timeout
    else some ToolFailureKind.remoteCallError
  else if str ("tool execution error") <+: e then some ToolFailureKind.toolError
  else none

end TmuxAI

namespace TmuxAI

/-! ## Helper lemmas -/

/-- A nonempty list that starts another list shares its first element. -/
lemma head?_eq_of_starts {l₁ l₂ : Str} (h : l₁ <+: l₂) (hne : l₁ ≠ []) :
    l₁.head? = l₂.head? := by
  obtain ⟨t, rfl⟩ := h
  cases l₁ with
  | nil => exact absurd rfl hne
  | cons a l => rfl

/-- Transport kinds the bring-up switch accepts (its non-default cases). -/
def supportedKinds : List Str :=
  [str ("stdio"), str ("sse"), str ("streamable-http"), str ("streamableHTTP"), str ("http")]

lemma connectOne_type_mem (env : ConnEnv) (s : McpServer)
    (h : (connectOne env s).isSome = true) : s.ServerType ∈ supportedKinds := by
  unfold connectOne transportCreated at h
  split at h
  · rename_i h1
    simp [supportedKinds, h1]
  · split at h
    · rename_i h2
      simp [supportedKinds, h2]
    · split at h
      · rename_i h3
        rcases h3 with h3 | h3 | h3 <;> simp [supportedKinds, h3]
      · simp at h

lemma connectOne_none_of_unsupported (env : ConnEnv) (s : McpServer)
    (h : s.ServerType ∉ supportedKinds) : connectOne env s = none := by
  rcases hc : connectOne env s with _ | c
  · rfl
  · exact absurd (connectOne_type_mem env s (by rw [hc]; rfl)) h

lemma lookupA_foldStep (env : ConnEnv) (servers : List McpServer)
    (acc : List (Str × Client)) (name : Str) :
    (lookupA name (servers.foldl (fun acc server =>
        match connectOne env server with
        | some c => (server.Name, c) :: acc
        | none => acc) acc)).isSome = true ↔
      (∃ s ∈ servers, s.Name = name ∧ (connectOne env s).isSome = true) ∨
        (lookupA name acc).isSome = true := by
  induction servers generalizing acc with
  | nil => simp
  | cons s rest ih =>
    rw [List.foldl_cons]
    rcases hc : connectOne env s with _ | c
    · simp only [hc]
      rw [ih]
      constructor
      · rintro (h | h)
        · exact Or.inl ⟨h.choose, List.mem_cons_of_mem s h.choose_spec.1, h.choose_spec.2⟩
        · exact Or.inr h
      · rintro (⟨x, hx, hnm, hs⟩ | h)
        · rcases List.mem_cons.mp hx with rfl | hx
          · rw [hc] at hs; exact absurd hs (by simp)
          · exact Or.inl ⟨x, hx, hnm, hs⟩
        · exact Or.inr h
    · simp only [hc]
      rw [ih]
      by_cases hn : s.Name = name
      · simp only [lookupA, hn, if_pos rfl]
        constructor
        · intro _
          exact Or.inl ⟨s, List.mem_cons_self s rest, hn, by rw [hc]; rfl⟩
        · intro _
          exact Or.inr (by simp)
      · simp only [lookupA, if_neg hn]
        constructor
        · rintro (h | h)
          · exact Or.inl ⟨h.choose, List.mem_cons_of_mem s h.choose_spec.1, h.choose_spec.2⟩
          · exact Or.inr h
        · rintro (⟨x, hx, hnm, hs⟩ | h)
          · rcases List.mem_cons.mp hx with rfl | hx
            · exact absurd hnm hn
            · exact Or.inl ⟨x, hx, hnm, hs⟩
          · exact Or.inr h

/-- Membership in the registry built by `NewMcpClient`: a name is bound
exactly when some spec with that name established its connection. -/
lemma mem_newMcpClient (env : ConnEnv) (servers : List McpServer) (name : Str) :
    (lookupA name (NewMcpClient env servers).clients).isSome = true ↔
      ∃ s ∈ servers, s.Name = name ∧ (connectOne env s).isSome = true := by
  unfold NewMcpClient
  rw [lookupA_foldStep]
  simp [lookupA]

end TmuxAI

namespace TmuxAI

/-! ## Classification lemmas for the CallTool error strings -/

lemma classify_notFound (s : Str) :
    classifyToolError (notFoundError s) = some ToolFailureKind.notFound := by
  unfold classifyToolError
  rw [if_pos ⟨s ++ [quoteChar] ++ str (" not found"), by simp [notFoundError, List.append_assoc]⟩]

lemma classify_callFailed (m s e : Str) :
    classifyToolError (callFailedError m s e) =
      if contextDeadlineExceeded <:+: callFailedError m s e then some ToolFailureKind.timeout
      else some ToolFailureKind.remoteCallError := by
  unfold classifyToolError
  rw [if_neg, if_pos]
  · exact ⟨m ++ [quoteChar] ++ str (" on server ") ++ [quoteChar] ++ s ++ [quoteChar]
      ++ str (": ") ++ e, by simp [callFailedError, List.append_assoc]⟩
  · intro h
    have hh := head?_eq_of_starts h (by decide)
    exact absurd hh (by exact (by decide : ¬ ((some 'M' : Option Char) = some 'f')))

lemma classify_toolExec (t : Str) :
    classifyToolError (toolExecError t) = some ToolFailureKind.toolError := by
  unfold classifyToolError
  rw [if_neg, if_neg, if_pos]
  · exact ⟨str (": ") ++ t, by
      simp only [toolExecError, ← List.append_assoc]
      congr 1⟩
  · intro h
    have hh := head?_eq_of_starts h (by decide)
    exact absurd hh (by exact (by decide : ¬ ((some 'f' : Option Char) = some 't')))
  · intro h
    have hh := head?_eq_of_starts h (by decide)
    exact absurd hh (by exact (by decide : ¬ ((some 'M' : Option Char) = some 't')))

end TmuxAI

namespace TmuxAI

/-! ## Claims about the tool-client registry -/

/-- C1: for every server name absent from the registry's connection map,
both `ListTools` and `CallTool` return the not-found error, perform no
remote call, and leave the registry state unchanged. -/
theorem claim_C1 (mc : McpClient) (serverName toolName : Str) (arguments : Args)
    (h : lookupA serverName mc.clients = none) :
    mc.CallTool serverName toolName arguments =
      ⟨mc, Except.error (notFoundError serverName), []⟩ ∧
    mc.ListTools serverName = ⟨mc, Except.error (notFoundError serverName), false⟩ := by
  unfold McpClient.CallTool McpClient.ListTools
  rw [h]
  exact ⟨rfl, rfl⟩

/-- An empty registry, used to instantiate hypotheses about absent servers. -/
def emptyRegistry : McpClient := ⟨[]⟩

theorem claim_C1_witness :
    emptyRegistry.CallTool (str ("ghost")) (str ("echo")) [] =
      ⟨emptyRegistry, Except.error (notFoundError (str ("ghost"))), []⟩ ∧
    emptyRegistry.ListTools (str ("ghost")) =
      ⟨emptyRegistry, Except.error (notFoundError (str ("ghost"))), false⟩ :=
  claim_C1 emptyRegistry (str ("ghost")) (str ("echo")) [] rfl

/-- C2: registry bring-up attempts every spec independently; the
resulting registry binds a name exactly when some spec with that name
established its connection, so one spec's failure affects no other
server, and `NewMcpClient` returns a registry (never an error). -/
theorem claim_C2 (env : ConnEnv) (servers : List McpServer) (name : Str) :
    (lookupA name (NewMcpClient env servers).clients).isSome = true ↔
      ∃ s ∈ servers, s.Name = name ∧ (connectOne env s).isSome = true :=
  mem_newMcpClient env servers name

/-- A remote-behavior stub for servers whose remote side is irrelevant. -/
def stubClient : Client := ⟨fun _ _ => RemoteOutcome.ok ⟨false, []⟩, Except.ok []⟩

/-- A bring-up oracle where every transport, start and initialize succeeds. -/
def allOkEnv : ConnEnv :=
  ⟨fun _ => true, fun _ => true, fun _ => true, fun _ => true, fun _ => stubClient⟩

/-- A bring-up oracle where every initialize call fails. -/
def initFailEnv : ConnEnv :=
  ⟨fun _ => true, fun _ => true, fun _ => true, fun _ => false, fun _ => stubClient⟩

/-- A well-formed stdio server spec. -/
def stdioServer : McpServer :=
  ⟨str ("alpha"), [], str ("stdio"), str ("run"), [], []⟩

/-- A server spec whose transport kind is the string `http`. -/
def httpServer : McpServer :=
  ⟨str ("hsrv"), str ("http://x"), str ("http"), [], [], []⟩

/-- A server spec with a bogus transport kind. -/
def bogusServer : McpServer :=
  ⟨str ("beta"), [], str ("carrier-pigeon"), [], [], []⟩

theorem claim_C2_witness :
    ((lookupA (str ("alpha"))
        (NewMcpClient allOkEnv [stdioServer, bogusServer]).clients).isSome = true) ∧
    ((lookupA (str ("beta"))
        (NewMcpClient allOkEnv [stdioServer, bogusServer]).clients).isSome = false) := by
  constructor
  · exact (claim_C2 allOkEnv [stdioServer, bogusServer] (str ("alpha"))).mpr
      ⟨stdioServer, by simp, rfl, rfl⟩
  · have h := (claim_C2 allOkEnv [stdioServer, bogusServer] (str ("beta")))
    rcases hb : (lookupA (str ("beta"))
        (NewMcpClient allOkEnv [stdioServer, bogusServer]).clients).isSome with _ | _
    · rfl
    · rcases (h.mp hb) with ⟨s, hs, hname, hconn⟩
      rcases List.mem_cons.mp hs with rfl | hs
      · exact absurd hname (by decide)
      · rcases List.mem_cons.mp hs with rfl | hs
        · rw [connectOne_none_of_unsupported allOkEnv bogusServer (by decide)] at hconn
          exact absurd hconn (by simp)
        · simp at hs

end TmuxAI

namespace TmuxAI

/-- C3: `CallTool` applies a 30-second bound (tens of seconds) and
`ListTools` a 10-second bound (seconds-scale); a failed call on a
connected server comes back as an error value whose text decodes to the
distinct NotFound / Timeout / ToolError conditions (the tool error
carrying the remote error text), never as a crash. -/
theorem claim_C3 :
    (callToolTimeoutSeconds = 30 ∧ 10 ≤ callToolTimeoutSeconds ∧ callToolTimeoutSeconds < 100) ∧
    (listToolsTimeoutSeconds = 10 ∧ listToolsTimeoutSeconds ≤ 10) ∧
    (∀ (mc : McpClient) (serverName toolName : Str) (arguments : Args),
      lookupA serverName mc.clients = none →
        ∃ e, (mc.CallTool serverName toolName arguments).result = Except.error e ∧
          classifyToolError e = some ToolFailureKind.notFound) ∧
    (∀ (mc : McpClient) (serverName toolName : Str) (arguments : Args) (client : Client),
      lookupA serverName mc.clients = some client →
      client.callToolRemote (mangledToolName serverName toolName) arguments =
        RemoteOutcome.err contextDeadlineExceeded →
        ∃ e, (mc.CallTool serverName toolName arguments).result = Except.error e ∧
          classifyToolError e = some ToolFailureKind.timeout) ∧
    (∀ (mc : McpClient) (serverName toolName : Str) (arguments : Args) (client : Client)
        (t : Str) (rest : List McpContent),
      lookupA serverName mc.clients = some client →
      client.callToolRemote (mangledToolName serverName toolName) arguments =
        RemoteOutcome.ok ⟨true, McpContent.text t :: rest⟩ →
        (mc.CallTool serverName toolName arguments).result = Except.error (toolExecError t) ∧
          classifyToolError (toolExecError t) = some ToolFailureKind.toolError ∧
          t <:+: toolExecError t) := by
  refine ⟨⟨rfl, by decide, by decide⟩, ⟨rfl, by decide⟩, ?_, ?_, ?_⟩
  · intro mc serverName toolName arguments h
    refine ⟨notFoundError serverName, ?_, classify_notFound serverName⟩
    unfold McpClient.CallTool
    rw [h]
  · intro mc serverName toolName arguments client h hr
    refine ⟨callFailedError (mangledToolName serverName toolName) serverName
      contextDeadlineExceeded, ?_, ?_⟩
    · unfold McpClient.CallTool
      rw [h]
      simp only [hr]
    · rw [classify_callFailed, if_pos]
      exact ⟨str ("failed to call tool ") ++ [quoteChar]
          ++ mangledToolName serverName toolName ++ [quoteChar]
          ++ str (" on server ") ++ [quoteChar] ++ serverName ++ [quoteChar] ++ str (": "),
        [], by simp [callFailedError, List.append_assoc]⟩
  · intro mc serverName toolName arguments client t rest h hr
    refine ⟨?_, classify_toolExec t, ⟨str ("tool execution error: "), [], by
      simp [toolExecError, List.append_assoc]⟩⟩
    unfold McpClient.CallTool
    rw [h]
    simp only [hr]
    rfl

/-- A connection whose remote side always reports a context deadline,
i.e. every call on it times out. -/
def timeoutClient : Client :=
  ⟨fun _ _ => RemoteOutcome.err contextDeadlineExceeded, Except.ok []⟩

/-- A one-server registry whose single connection times out. -/
def timeoutRegistry : McpClient := ⟨[(str ("srv"), timeoutClient)]⟩

theorem claim_C3_witness :
    ∃ e, (timeoutRegistry.CallTool (str ("srv")) (str ("echo")) []).result = Except.error e ∧
      classifyToolError e = some ToolFailureKind.timeout :=
  claim_C3.2.2.2.1 timeoutRegistry (str ("srv")) (str ("echo")) [] timeoutClient rfl rfl

/-- C8: on a connected server, `CallTool` performs the remote invocation
under the mangled name `serverName + "-" + toolName` — never under the
given tool name, which the mangled form always differs from — and a
remote-call failure's error text contains that mangled name. -/
theorem claim_C8 (mc : McpClient) (serverName toolName : Str) (arguments : Args)
    (client : Client) (h : lookupA serverName mc.clients = some client) :
    (mc.CallTool serverName toolName arguments).remoteCalls =
      [(mangledToolName serverName toolName, arguments)] ∧
    mangledToolName serverName toolName ≠ toolName ∧
    (∀ e, client.callToolRemote (mangledToolName serverName toolName) arguments =
        RemoteOutcome.err e →
      (mc.CallTool serverName toolName arguments).result =
        Except.error (callFailedError (mangledToolName serverName toolName) serverName e) ∧
      mangledToolName serverName toolName <:+:
        callFailedError (mangledToolName serverName toolName) serverName e) := by
  refine ⟨?_, ?_, ?_⟩
  · unfold McpClient.CallTool
    rw [h]
    rcases hr : client.callToolRemote (mangledToolName serverName toolName) arguments with e | r
    · simp only [hr]
    · rcases r with ⟨isErr, content⟩
      rcases isErr <;> rcases content with _ | ⟨c, rest⟩ <;> (try rcases c) <;> simp only [hr] <;> rfl
  · intro hEq
    have hl := congrArg List.length hEq
    simp only [mangledToolName, List.length_append,
      show (str ("-")).length = 1 from rfl] at hl
    omega
  · intro e hr
    constructor
    · unfold McpClient.CallTool
      rw [h]
      simp only [hr]
    · exact ⟨str ("failed to call tool ") ++ [quoteChar], [quoteChar] ++ str (" on server ")
        ++ [quoteChar] ++ serverName ++ [quoteChar] ++ str (": ") ++ e,
        by simp [callFailedError, List.append_assoc]⟩

theorem claim_C8_witness :
    (timeoutRegistry.CallTool (str ("srv")) (str ("echo")) []).remoteCalls =
      [(mangledToolName (str ("srv")) (str ("echo")), [])] ∧
    mangledToolName (str ("srv")) (str ("echo")) ≠ str ("echo") :=
  ⟨(claim_C8 timeoutRegistry (str ("srv")) (str ("echo")) [] timeoutClient rfl).1,
   (claim_C8 timeoutRegistry (str ("srv")) (str ("echo")) [] timeoutClient rfl).2.1⟩

end TmuxAI

namespace TmuxAI

/-- C4 counterexample: `http` is none of the three documented transport
kinds, yet bring-up establishes a connection for a spec carrying it. -/
theorem claim_C4_counterexample :
    httpServer.ServerType ∉ [str ("stdio"), str ("sse"), str ("streamable-http")] ∧
    (lookupA httpServer.Name (NewMcpClient allOkEnv [httpServer]).clients).isSome = true := by
  exact ⟨by decide, rfl⟩

/-- C4 (amended): bring-up establishes a connection only for specs whose
transport kind is one of the five strings `stdio`, `sse`,
`streamable-http`, `streamableHTTP`, `http`; every spec with any other
transport-kind string is unsupported and absent from the registry. -/
theorem claim_C4_amended :
    (∀ (env : ConnEnv) (servers : List McpServer) (name : Str),
      (lookupA name (NewMcpClient env servers).clients).isSome = true →
        ∃ s, s ∈ servers ∧ s.Name = name ∧ s.ServerType ∈ supportedKinds) ∧
    (∀ (env : ConnEnv) (servers : List McpServer),
      (∀ s ∈ servers, s.ServerType ∉ supportedKinds) →
        (NewMcpClient env servers).clients = []) := by
  constructor
  · intro env servers name h
    obtain ⟨s, hs, hname, hconn⟩ := (mem_newMcpClient env servers name).mp h
    exact ⟨s, hs, hname, connectOne_type_mem env s hconn⟩
  · intro env servers h
    unfold NewMcpClient
    induction servers with
    | nil => rfl
    | cons s rest ih =>
      rw [List.foldl_cons, connectOne_none_of_unsupported env s (h s (List.mem_cons_self s rest))]
      exact ih (fun x hx => h x (List.mem_cons_of_mem s hx))

theorem claim_C4_amended_witness :
    (∃ s, s ∈ [httpServer] ∧ s.Name = str ("hsrv") ∧ s.ServerType ∈ supportedKinds) ∧
    (NewMcpClient allOkEnv [bogusServer]).clients = [] :=
  ⟨claim_C4_amended.1 allOkEnv [httpServer] (str ("hsrv")) rfl,
   claim_C4_amended.2 allOkEnv [bogusServer] (by decide)⟩

end TmuxAI

namespace TmuxAI

/-! ## Chat-message conversion (AiClient.GetResponseFromChatMessages,
src/internal/ai_client.go lines 57-74) -/

/-- Modelled from the spec: `ChatMessage` — `{content: text, fromUser:
bool, timestamp}`.  The struct's defining file is not among the provided
sources; the fields are the ones the embedded code reads. -/
structure ChatMessage where
  Content : Str
  FromUser : Bool
  Timestamp : Nat

/-- The Eino `schema.RoleType` values used by the conversion. -/
inductive RoleType where
  | system
  | user
  | assistant
  deriving DecidableEq

/-- Embeds the conversion loop: index 0 gets the system role when the
message is not from the user, user messages get the user role, all other
messages the assistant role; content is passed through. -/
def toEinoMessages (chatMessages : List ChatMessage) : List (RoleType × Str) :=
  chatMessages.enum.map (fun p =>
    (if p.1 = 0 ∧ p.2.FromUser = false then RoleType.system
     else if p.2.FromUser then RoleType.user
     else RoleType.assistant, p.2.Content))

/-- The property claim C5 asserts, written from the spec sentence: the
first non-user message of the history (every message before it being a
user message) is the one sent with the system role. -/
def specFirstNonUserIsSystem (msgs : List ChatMessage) : Prop :=
  ∀ (i : Nat) (h : i < msgs.length),
    msgs[i].FromUser = false →
    (∀ (j : Nat), j < i → ∀ (hj : j < msgs.length), msgs[j].FromUser = true) →
    ∃ c, (toEinoMessages msgs)[i]? = some (RoleType.system, c)

/-- A history whose first message is from the user and whose second is
the first non-user message. -/
def exHistoryC5 : List ChatMessage :=
  [⟨str ("hello"), true, 0⟩, ⟨str ("hi"), false, 1⟩]

/-- C5 counterexample: in a history starting with a user message, the
first non-user message (index 1) is sent with the assistant role, not
the system role. -/
theorem claim_C5_counterexample : ¬ specFirstNonUserIsSystem exHistoryC5 := by
  intro hspec
  obtain ⟨c, hc⟩ := hspec 1 (by decide) (by decide)
    (fun j hj hjlen => by
      have hj0 : j = 0 := by omega
      subst hj0
      rfl)
  have hval : (toEinoMessages exHistoryC5)[1]? = some (RoleType.assistant, str ("hi")) := rfl
  rw [hval] at hc
  simp at hc

/-- C5 (amended): position 0 is sent with the system role exactly when
its message is not from the user; every user message is sent with the
user role and every non-user message at a later position with the
assistant role; content is forwarded unchanged. -/
theorem claim_C5_amended (msgs : List ChatMessage) (i : Nat) (h : i < msgs.length) :
    (toEinoMessages msgs)[i]? =
      some (if i = 0 ∧ msgs[i].FromUser = false then RoleType.system
            else if msgs[i].FromUser then RoleType.user
            else RoleType.assistant, msgs[i].Content) := by
  unfold toEinoMessages
  rw [List.getElem?_map, List.getElem?_enum, List.getElem?_eq_getElem h]
  rfl

theorem claim_C5_witness :
    (toEinoMessages exHistoryC5)[0]? = some (RoleType.user, str ("hello")) := by
  have h := claim_C5_amended exHistoryC5 0 (by decide)
  simpa using h

end TmuxAI

namespace TmuxAI

/-! ## Configuration (src/config/config.go, src/internal/chat_command.go) -/

structure OpenRouterConfig where
  APIKey : Str
  Model : Str
  BaseURL : Str

structure McpConfig where
  Servers : List McpServer

structure PromptsConfig where
  BaseSystem : Str
  ChatAssistant : Str
  ChatAssistantPrepared : Str
  Watch : Str

/-- Embeds the persisted `Config` struct (src/config/config.go). -/
structure Config where
  Debug : Bool
  MaxCaptureLines : Int
  MaxContextSize : Int
  WaitInterval : Int
  SendKeysConfirm : Bool
  PasteMultilineConfirm : Bool
  ExecConfirm : Bool
  WhitelistPatterns : List Str
  BlacklistPatterns : List Str
  OpenRouter : OpenRouterConfig
  Mcp : McpConfig
  Prompts : PromptsConfig

/-- Embeds `DefaultConfig` (src/config/config.go lines 59-82). -/
def DefaultConfig : Config :=
  { Debug := false
    MaxCaptureLines := 200
    MaxContextSize := 20000
    WaitInterval := 5
    SendKeysConfirm := true
    PasteMultilineConfirm := true
    ExecConfirm := true
    WhitelistPatterns := []
    BlacklistPatterns := []
    OpenRouter := { APIKey := [], Model := str ("google/gemini-flash-1.5"),
                    BaseURL := str ("https://openrouter.ai/api/v1") }
    Mcp := { Servers := [] }
    Prompts := { BaseSystem := [], ChatAssistant := [], ChatAssistantPrepared := [], Watch := [] } }

/-- A session-override value: the typed values `setConfigValue` stores
into the `map[string]interface{}`. -/
inductive ConfigValue where
  | int (n : Int)
  | bool (b : Bool)
  | text (s : Str)
  deriving DecidableEq

/-- The `Manager` fields the embedded operations touch (src/unnamed/part_000). -/
structure Manager where
  Config : Config
  SessionOverrides : List (Str × ConfigValue)
  McpServers : List McpServer
  McpClient : McpClient

/-- Modelled from the spec: `AllowedConfigKeys`, the explicit allow-list
of config keys eligible for session override.  Its defining file is not
among the provided sources; the list is taken as the keys the
`getConfigValue`/`setConfigValue` switches handle, which the spec calls
"a small allow-listed set of config keys". -/
def AllowedConfigKeys : List Str :=
  [str ("max_capture_lines"), str ("max_context_size"), str ("wait_interval"),
   str ("send_keys_confirm"), str ("paste_multiline_confirm"), str ("exec_confirm"),
   str ("openrouter.model")]

/-- Embeds `isAllowedConfigKey`: linear scan of the allow-list. -/
def isAllowedConfigKey (key : Str) : Bool :=
  AllowedConfigKeys.any (fun allowedKey => allowedKey = key)

/-- Leading decimal digits of a list, with their value; `none` when the
list does not start with a digit. -/
def digitsVal (l : Str) : Option Nat :=
  match l.takeWhile Char.isDigit with
  | [] => none
  | ds => some (ds.foldl (fun acc c => 10 * acc + (c.toNat - '0'.toNat)) 0)

/-- Smallest value of Go's 64-bit `int`, the target type of the scan. -/
def goIntMin : Int := -(2 ^ 63)

/-- Largest value of Go's 64-bit `int`, the target type of the scan. -/
def goIntMax : Int := 2 ^ 63 - 1

/-- Embeds one `fmt.Sscanf(value, "%d", &intVal)` step: skip leading
spaces, read an optional sign and at least one decimal digit, ignore
any trailing characters (the Go scanner does not require the whole
string to be consumed).  The scanned token is range-checked against the
64-bit `int` target (`strconv.ParseInt` and the scanner's overflow
check): an out-of-range token is a scan error, not a truncated value. -/
def parseGoInt (value : Str) : Option Int :=
  match value.dropWhile (fun c => c = ' ') with
  | '-' :: rest => (digitsVal rest).bind (fun n =>
      if goIntMin ≤ -(n : Int) then some (-(n : Int)) else none)
  | '+' :: rest => (digitsVal rest).bind (fun n =>
      if (n : Int) ≤ goIntMax then some ((n : Int)) else none)
  | rest => (digitsVal rest).bind (fun n =>
      if (n : Int) ≤ goIntMax then some ((n : Int)) else none)

/-- Tail acceptance for `t`/`T`: the Go scanner accepts `r`,`u`,`e` (any
case) greedily and errors only on a partial match of `rue`. -/
def goBoolTrueTail : Str → Option Bool
  | [] => some true
  | c :: rest =>
    if c = 'r' ∨ c = 'R' then
      match rest with
      | [] => none
      | c2 :: rest2 =>
        if c2 = 'u' ∨ c2 = 'U' then
          match rest2 with
          | [] => none
          | c3 :: _ => if c3 = 'e' ∨ c3 = 'E' then some true else none
        else none
    else some true

/-- Tail acceptance for `f`/`F`: greedy `alse`, error on partial match. -/
def goBoolFalseTail : Str → Option Bool
  | [] => some false
  | c :: rest =>
    if c = 'a' ∨ c = 'A' then
      match rest with
      | [] => none
      | c2 :: rest2 =>
        if c2 = 'l' ∨ c2 = 'L' then
          match rest2 with
          | [] => none
          | c3 :: rest3 =>
            if c3 = 's' ∨ c3 = 'S' then
              match rest3 with
              | [] => none
              | c4 :: _ => if c4 = 'e' ∨ c4 = 'E' then some false else none
            else none
        else none
    else some false

/-- Embeds one `fmt.Sscanf(value, "%t", &boolVal)` step, following the
Go scanner's boolean grammar: `0`, `1`, or a prefix-greedy `true`/`false`
in either case; trailing characters are ignored. -/
def parseGoBool (value : Str) : Option Bool :=
  match value.dropWhile (fun c => c = ' ') with
  | '0' :: _ => some false
  | '1' :: _ => some true
  | 't' :: rest => goBoolTrueTail rest
  | 'T' :: rest => goBoolTrueTail rest
  | 'f' :: rest => goBoolFalseTail rest
  | 'F' :: rest => goBoolFalseTail rest
  | _ => none

/-- Embeds `getConfigValue` (src/internal/chat_command.go lines 247-272):
session override first, then the persisted field, `nil` otherwise. -/
def getConfigValue (m : Manager) (key : Str) : Option ConfigValue :=
  match lookupA key m.SessionOverrides with
  | some override => some override
  | none =>
    if key = str ("max_capture_lines") then some (ConfigValue.int m.Config.MaxCaptureLines)
    else if key = str ("max_context_size") then some (ConfigValue.int m.Config.MaxContextSize)
    else if key = str ("wait_interval") then some (ConfigValue.int m.Config.WaitInterval)
    else if key = str ("send_keys_confirm") then some (ConfigValue.bool m.Config.SendKeysConfirm)
    else if key = str ("paste_multiline_confirm") then
      some (ConfigValue.bool m.Config.PasteMultilineConfirm)
    else if key = str ("exec_confirm") then some (ConfigValue.bool m.Config.ExecConfirm)
    else if key = str ("openrouter.model") then some (ConfigValue.text m.Config.OpenRouter.Model)
    else none

/-- Outcome of `setConfigValue`: the updated manager, or the error. -/
inductive SetResult where
  | ok (m : Manager)
  | err (msg : Str)

/-- Embeds `setConfigValue` (src/internal/chat_command.go lines 275-301):
parse the value according to the key's type and store the typed value as
a session override; the nil-map initialization of the Go code is a no-op
in the association-list model. -/
def setConfigValue (m : Manager) (key value : Str) : SetResult :=
  if key = str ("max_capture_lines") ∨ key = str ("max_context_size")
      ∨ key = str ("wait_interval") then
    match parseGoInt value with
    | none => SetResult.err (str ("invalid integer value: ") ++ value)
    | some intVal =>
      SetResult.ok { m with SessionOverrides := (key, ConfigValue.int intVal) :: m.SessionOverrides }
  else if key = str ("send_keys_confirm") ∨ key = str ("paste_multiline_confirm")
      ∨ key = str ("exec_confirm") then
    match parseGoBool value with
    | none => SetResult.err (str ("invalid boolean value: ") ++ value
        ++ str (" (use true or false)"))
    | some boolVal =>
      SetResult.ok { m with SessionOverrides := (key, ConfigValue.bool boolVal) :: m.SessionOverrides }
  else if key = str ("openrouter.model") then
    SetResult.ok { m with SessionOverrides := (key, ConfigValue.text value) :: m.SessionOverrides }
  else
    SetResult.err (str ("unknown config key: ") ++ key)

/-- What a `/config` invocation reported to the user. -/
inductive ConfigCmdOutcome where
  | usage
  | showAll
  | showKey (key : Str) (value : Option ConfigValue)
  | notAllowed (key : Str)
  | setError (msg : Str)
  | setOk (key value : Str)
  | unknownSub (sub : Str)
  deriving DecidableEq

/-- Embeds `handleConfigCommand` (src/internal/chat_command.go lines
185-234): subcommand dispatch, allow-list check, then get or set. -/
def handleConfigCommand (m : Manager) (args : List Str) : Manager × ConfigCmdOutcome :=
  match args with
  | [] => (m, ConfigCmdOutcome.usage)
  | sub :: rest =>
    if sub = str ("get") then
      match rest with
      | [] => (m, ConfigCmdOutcome.showAll)
      | [key] =>
        if isAllowedConfigKey key = false then (m, ConfigCmdOutcome.notAllowed key)
        else (m, ConfigCmdOutcome.showKey key (getConfigValue m key))
      | _ => (m, ConfigCmdOutcome.usage)
    else if sub = str ("set") then
      match rest with
      | [key, value] =>
        if isAllowedConfigKey key = false then (m, ConfigCmdOutcome.notAllowed key)
        else
          match setConfigValue m key value with
          | SetResult.err e => (m, ConfigCmdOutcome.setError e)
          | SetResult.ok m2 => (m2, ConfigCmdOutcome.setOk key value)
      | _ => (m, ConfigCmdOutcome.usage)
    else (m, ConfigCmdOutcome.unknownSub sub)

end TmuxAI

namespace TmuxAI

/-! ## Claims about /config set and session overrides -/

lemma allowed_key_cases (key : Str) (h : isAllowedConfigKey key = true) :
    key = str ("max_capture_lines") ∨ key = str ("max_context_size") ∨
    key = str ("wait_interval") ∨ key = str ("send_keys_confirm") ∨
    key = str ("paste_multiline_confirm") ∨ key = str ("exec_confirm") ∨
    key = str ("openrouter.model") := by
  simp [isAllowedConfigKey, AllowedConfigKeys] at h
  tauto

lemma handleConfig_set_err (m : Manager) (key value e : Str)
    (hAllow : isAllowedConfigKey key = true)
    (h : setConfigValue m key value = SetResult.err e) :
    handleConfigCommand m [str ("set"), key, value] = (m, ConfigCmdOutcome.setError e) := by
  unfold handleConfigCommand
  simp only [hAllow, h]
  rfl

lemma handleConfig_set_ok (m : Manager) (key value : Str) (m2 : Manager)
    (hAllow : isAllowedConfigKey key = true)
    (h : setConfigValue m key value = SetResult.ok m2) :
    handleConfigCommand m [str ("set"), key, value] = (m2, ConfigCmdOutcome.setOk key value) := by
  unfold handleConfigCommand
  simp only [hAllow, h]
  rfl

/-- The typed value the amended claim C6 expects an allowed key to
store: integer keys scan the value with the Go integer grammar, boolean
keys with the Go boolean grammar, and the model key keeps the raw text. -/
def parsedOverrideValue (key value : Str) : Option ConfigValue :=
  if key = str ("max_capture_lines") ∨ key = str ("max_context_size")
      ∨ key = str ("wait_interval") then (parseGoInt value).map ConfigValue.int
  else if key = str ("send_keys_confirm") ∨ key = str ("paste_multiline_confirm")
      ∨ key = str ("exec_confirm") then (parseGoBool value).map ConfigValue.bool
  else if key = str ("openrouter.model") then some (ConfigValue.text value)
  else none

lemma setConfigValue_spec (m : Manager) (key value : Str)
    (hAllow : isAllowedConfigKey key = true) :
    (parsedOverrideValue key value = none →
      ∃ e, setConfigValue m key value = SetResult.err e) ∧
    (∀ v, parsedOverrideValue key value = some v →
      setConfigValue m key value =
        SetResult.ok { m with SessionOverrides := (key, v) :: m.SessionOverrides }) := by
  unfold setConfigValue parsedOverrideValue
  by_cases h1 : key = str ("max_capture_lines") ∨ key = str ("max_context_size")
      ∨ key = str ("wait_interval")
  · simp only [if_pos h1]
    rcases hp : parseGoInt value with _ | n <;> simp only [hp]
    · exact ⟨fun _ => ⟨_, rfl⟩, fun v hv => by simp at hv⟩
    · refine ⟨fun hnone => by simp at hnone, fun v hv => ?_⟩
      simp only [Option.map_some', Option.some.injEq] at hv
      rw [← hv]
  · simp only [if_neg h1]
    by_cases h2 : key = str ("send_keys_confirm") ∨ key = str ("paste_multiline_confirm")
        ∨ key = str ("exec_confirm")
    · simp only [if_pos h2]
      rcases hp : parseGoBool value with _ | b <;> simp only [hp]
      · exact ⟨fun _ => ⟨_, rfl⟩, fun v hv => by simp at hv⟩
      · refine ⟨fun hnone => by simp at hnone, fun v hv => ?_⟩
        simp only [Option.map_some', Option.some.injEq] at hv
        rw [← hv]
    · simp only [if_neg h2]
      by_cases h3 : key = str ("openrouter.model")
      · simp only [if_pos h3]
        refine ⟨fun hnone => by simp at hnone, fun v hv => ?_⟩
        simp only [Option.some.injEq] at hv
        rw [← hv]
      · exact absurd (allowed_key_cases key hAllow) (by tauto)

/-- A manager in its initial session state (defaults, no overrides). -/
def m0 : Manager := ⟨DefaultConfig, [], [], emptyRegistry⟩

/-- C6 counterexample: `7x` is not an integer, yet `/config set
max_capture_lines 7x` reports success and stores the override `7` —
no error is reported for this malformed integer value. -/
theorem claim_C6_counterexample :
    (handleConfigCommand m0 [str ("set"), str ("max_capture_lines"), str ("7x")]).2 =
      ConfigCmdOutcome.setOk (str ("max_capture_lines")) (str ("7x")) ∧
    (handleConfigCommand m0 [str ("set"), str ("max_capture_lines"), str ("7x")]).1.SessionOverrides =
      [(str ("max_capture_lines"), ConfigValue.int 7)] :=
  ⟨rfl, rfl⟩

/-- C6 (amended): a non-allowed key is rejected with no state change;
for an allowed key the value is scanned with the Go scanner grammar for
the key's type — an error is reported and the overrides map left
unchanged exactly when the scan fails (no leading optionally-signed
digits, or a token outside the 64-bit int range, for an integer key;
no valid boolean form for a boolean key); when the scan succeeds, the
scanned typed value (any trailing characters ignored) is stored under
the key in SessionOverrides. -/
theorem claim_C6_amended (m : Manager) (key value : Str) :
    (isAllowedConfigKey key = false →
      handleConfigCommand m [str ("set"), key, value] = (m, ConfigCmdOutcome.notAllowed key)) ∧
    (isAllowedConfigKey key = true →
      (parsedOverrideValue key value = none →
        ∃ e, setConfigValue m key value = SetResult.err e ∧
          handleConfigCommand m [str ("set"), key, value] = (m, ConfigCmdOutcome.setError e)) ∧
      (∀ v, parsedOverrideValue key value = some v →
        setConfigValue m key value =
          SetResult.ok { m with SessionOverrides := (key, v) :: m.SessionOverrides } ∧
        handleConfigCommand m [str ("set"), key, value] =
          ({ m with SessionOverrides := (key, v) :: m.SessionOverrides },
            ConfigCmdOutcome.setOk key value))) := by
  constructor
  · intro hNot
    unfold handleConfigCommand
    simp only [hNot]
    rfl
  · intro hAllow
    obtain ⟨herr, hok⟩ := setConfigValue_spec m key value hAllow
    constructor
    · intro hnone
      obtain ⟨e, he⟩ := herr hnone
      exact ⟨e, he, handleConfig_set_err m key value e hAllow he⟩
    · intro v hv
      exact ⟨hok v hv, handleConfig_set_ok m key value _ hAllow (hok v hv)⟩

theorem claim_C6_witness :
    setConfigValue m0 (str ("max_capture_lines")) (str ("42")) =
      SetResult.ok { m0 with SessionOverrides :=
        [(str ("max_capture_lines"), ConfigValue.int 42)] } ∧
    (∃ e, setConfigValue m0 (str ("max_capture_lines"))
        (str ("99999999999999999999999999")) = SetResult.err e ∧
      handleConfigCommand m0 [str ("set"), str ("max_capture_lines"),
        str ("99999999999999999999999999")] =
          (m0, ConfigCmdOutcome.setError e)) := by
  constructor
  · have h := ((claim_C6_amended m0 (str ("max_capture_lines")) (str ("42"))).2
      (by decide)).2 (ConfigValue.int 42) (by decide)
    exact h.1
  · exact ((claim_C6_amended m0 (str ("max_capture_lines"))
      (str ("99999999999999999999999999"))).2 (by decide)).1 (by decide)

end TmuxAI

namespace TmuxAI

/-- The persisted-configuration field backing each overridable key; this
restates the fallback switch of `getConfigValue` in order to express the
shadowing property. -/
def persistedConfigValue (cfg : Config) (key : Str) : Option ConfigValue :=
  if key = str ("max_capture_lines") then some (ConfigValue.int cfg.MaxCaptureLines)
  else if key = str ("max_context_size") then some (ConfigValue.int cfg.MaxContextSize)
  else if key = str ("wait_interval") then some (ConfigValue.int cfg.WaitInterval)
  else if key = str ("send_keys_confirm") then some (ConfigValue.bool cfg.SendKeysConfirm)
  else if key = str ("paste_multiline_confirm") then
    some (ConfigValue.bool cfg.PasteMultilineConfirm)
  else if key = str ("exec_confirm") then some (ConfigValue.bool cfg.ExecConfirm)
  else if key = str ("openrouter.model") then some (ConfigValue.text cfg.OpenRouter.Model)
  else none

/-- C7: session overrides shadow the persisted configuration without
mutating it — a read returns the override when one exists and the
persisted field otherwise, and a successful set only prepends to the
overrides map, leaving the persisted `Config` (and the selected server
set) untouched. -/
theorem claim_C7 (m : Manager) (key : Str) (hmem : key ∈ AllowedConfigKeys) :
    (∀ v, lookupA key m.SessionOverrides = some v → getConfigValue m key = some v) ∧
    (lookupA key m.SessionOverrides = none →
      getConfigValue m key = persistedConfigValue m.Config key) ∧
    (∀ value m2, setConfigValue m key value = SetResult.ok m2 →
      m2.Config = m.Config ∧ m2.McpServers = m.McpServers ∧
      ∃ v, m2.SessionOverrides = (key, v) :: m.SessionOverrides) := by
  refine ⟨?_, ?_, ?_⟩
  · intro v hv
    unfold getConfigValue
    rw [hv]
  · intro hnone
    unfold getConfigValue persistedConfigValue
    rw [hnone]
  · intro value m2 hok
    have hAllow : isAllowedConfigKey key = true := by
      simp [isAllowedConfigKey, List.any_eq_true]
      exact hmem
    rcases hp : parsedOverrideValue key value with _ | v
    · obtain ⟨e, he⟩ := (setConfigValue_spec m key value hAllow).1 hp
      rw [he] at hok
      exact absurd hok (by simp)
    · have hset := (setConfigValue_spec m key value hAllow).2 v hp
      rw [hset] at hok
      injection hok with hok
      rw [← hok]
      exact ⟨rfl, rfl, v, rfl⟩

theorem claim_C7_witness :
    getConfigValue m0 (str ("wait_interval")) = persistedConfigValue m0.Config
      (str ("wait_interval")) ∧
    getConfigValue m0 (str ("wait_interval")) = some (ConfigValue.int 5) :=
  ⟨(claim_C7 m0 (str ("wait_interval")) (by decide)).2.1 rfl, rfl⟩

end TmuxAI

namespace TmuxAI

/-! ## Interactive server selection (src/system/fzf.go and
selectMcpServers, src/unnamed/part_000) -/

/-- The keys the widget binds (src/system/fzf.go `keybindings`). -/
inductive Key where
  | ctrlC
  | q
  | arrowDown
  | j
  | arrowUp
  | k
  | space
  | enter
  deriving DecidableEq

/-- The widget's state: cursor row, the selected-name set, and the two
globals `finalSelection` / `userCancelled` of src/system/fzf.go. -/
structure WidgetState where
  cursor : Nat
  selected : List Str
  finalSelection : Option (List Str)
  userCancelled : Bool

/-- Embeds `toggleSelection`: flip membership of the item under the
cursor, when the cursor is on an item. -/
def toggleSelection (items : List Str) (cursor : Nat) (selected : List Str) : List Str :=
  if h : cursor < items.length then
    if items[cursor] ∈ selected then selected.filter (fun x => x ≠ items[cursor])
    else items[cursor] :: selected
  else selected

/-- One key event, as wired by `keybindings`: quit bindings (`q`,
Ctrl-C) end the loop, Enter stores the selection, clears the cancelled
flag and ends the loop, movement and Space update the state.  Returns
the new state and whether the main loop ends. -/
def stepKey (items : List Str) (st : WidgetState) (key : Key) : WidgetState × Bool :=
  match key with
  | Key.ctrlC => (st, true)
  | Key.q => (st, true)
  | Key.arrowDown | Key.j =>
    ({ st with cursor := if st.cursor + 1 < items.length then st.cursor + 1 else st.cursor },
      false)
  | Key.arrowUp | Key.k =>
    ({ st with cursor := if 0 < st.cursor then st.cursor - 1 else st.cursor }, false)
  | Key.space =>
    ({ st with selected := toggleSelection items st.cursor st.selected }, false)
  | Key.enter =>
    ({ st with userCancelled := false, finalSelection := some st.selected }, true)

/-- Embeds `g.MainLoop()`: consume key events until a binding ends the
loop (or the stream is exhausted). -/
def runWidget (items : List Str) (st : WidgetState) : List Key → WidgetState
  | [] => st
  | key :: rest =>
    match stepKey items st key with
    | (st2, true) => st2
    | (st2, false) => runWidget items st2 rest

/-- Embeds `InteractiveSelect` (src/system/fzf.go lines 18-49): reset
the globals (`finalSelection = nil`, `userCancelled = true`), run the
loop on the user's key events, then return `(nil, nil)` on cancellation
and `(finalSelection, nil)` on confirmation.  The returned slice is
`Option`-valued to keep Go's nil/empty slice distinction; the second
component is the returned error (always nil on these paths). -/
def InteractiveSelect (items : List Str) (initiallySelected : List Str) (events : List Key) :
    Option (List Str) × Option Str :=
  let st := runWidget items
    { cursor := 0, selected := initiallySelected, finalSelection := none,
      userCancelled := true } events
  if st.userCancelled then (none, none)
  else (st.finalSelection, none)

/-- Ranging over a Go slice: a nil slice iterates like an empty one. -/
def sliceToList {α : Type} (s : Option (List α)) : List α := s.getD []

/-- Embeds `findMcpServer` (src/unnamed/part_000): first configured
server with the given name. -/
def findMcpServer (cfg : Config) (name : Str) : Option McpServer :=
  cfg.Mcp.Servers.find? (fun server => server.Name = name)

/-- What `selectMcpServers` printed, if anything. -/
inductive SelectOutcome where
  | noneConfigured
  | selectionError (e : Str)
  | updated
  deriving DecidableEq

/-- Embeds `selectMcpServers` (src/unnamed/part_000 lines 236-276, the
variant that reconnects the MCP client): guard on an empty configured
list, run the widget over the configured server names with the current
selection preselected, and on a nil error replace the session's server
set with the specs named by the new selection, closing the old client
and reconnecting only the selected servers. -/
def selectMcpServers (m : Manager) (env : ConnEnv) (events : List Key) :
    Manager × SelectOutcome :=
  if m.Config.Mcp.Servers.length = 0 then (m, SelectOutcome.noneConfigured)
  else
    let serverNames := m.Config.Mcp.Servers.map (fun server => server.Name)
    let selectedNames := m.McpServers.map (fun server => server.Name)
    match InteractiveSelect serverNames selectedNames events with
    | (_, some e) => (m, SelectOutcome.selectionError e)
    | (newlySelectedNames, none) =>
      let updatedMcpServers := (sliceToList newlySelectedNames).filterMap
        (fun name => findMcpServer m.Config name)
      ({ m with McpServers := updatedMcpServers,
                McpClient := NewMcpClient env updatedMcpServers },
        SelectOutcome.updated)

lemma runWidget_userCancelled (items : List Str) (st : WidgetState) (events : List Key)
    (h : Key.enter ∉ events) :
    (runWidget items st events).userCancelled = st.userCancelled := by
  induction events generalizing st with
  | nil => rfl
  | cons key rest ih =>
    have hkey : key ≠ Key.enter := fun hk => h (hk ▸ List.mem_cons_self key rest)
    have hrest : Key.enter ∉ rest := fun hr => h (List.mem_cons_of_mem key hr)
    cases key with
    | enter => exact absurd rfl hkey
    | ctrlC => rfl
    | q => rfl
    | arrowDown => exact ih _ hrest
    | j => exact ih _ hrest
    | arrowUp => exact ih _ hrest
    | k => exact ih _ hrest
    | space => exact ih _ hrest

end TmuxAI

namespace TmuxAI

/-- C9: cancelling the selection widget (`q` or Ctrl-C, with no prior
Enter) returns a nil selection and a nil error — which iterates exactly
like a confirmed empty selection — and `selectMcpServers` consequently
replaces the session's selected MCP server set with the empty set,
deselecting every previously selected server. -/
theorem claim_C9 (m : Manager) (env : ConnEnv) (events : List Key) (quitKey : Key)
    (hk : quitKey = Key.q ∨ quitKey = Key.ctrlC) (henter : Key.enter ∉ events)
    (hcfg : m.Config.Mcp.Servers ≠ []) :
    InteractiveSelect (m.Config.Mcp.Servers.map (fun server => server.Name))
        (m.McpServers.map (fun server => server.Name)) (events ++ [quitKey]) = (none, none) ∧
    sliceToList (none : Option (List Str)) = sliceToList (some ([] : List Str)) ∧
    (selectMcpServers m env (events ++ [quitKey])).1.McpServers = [] ∧
    (selectMcpServers m env (events ++ [quitKey])).2 = SelectOutcome.updated := by
  have hnotin : Key.enter ∉ events ++ [quitKey] := by
    intro hmem
    rcases List.mem_append.mp hmem with hmem | hmem
    · exact henter hmem
    · rcases hk with rfl | rfl <;> simp at hmem
  have hIS : InteractiveSelect (m.Config.Mcp.Servers.map (fun server => server.Name))
      (m.McpServers.map (fun server => server.Name)) (events ++ [quitKey]) = (none, none) := by
    have hcanc := runWidget_userCancelled
      (m.Config.Mcp.Servers.map (fun server => server.Name))
      { cursor := 0, selected := m.McpServers.map (fun server => server.Name),
        finalSelection := none, userCancelled := true } (events ++ [quitKey]) hnotin
    unfold InteractiveSelect
    rw [if_pos hcanc]
  refine ⟨hIS, rfl, ?_, ?_⟩
  · unfold selectMcpServers
    rw [if_neg (fun h => hcfg (List.length_eq_zero.mp h))]
    simp only [hIS]
    rfl
  · unfold selectMcpServers
    rw [if_neg (fun h => hcfg (List.length_eq_zero.mp h))]
    simp only [hIS]

/-- A session with one configured and currently selected server. -/
def mSel : Manager :=
  ⟨{ DefaultConfig with Mcp := { Servers := [stdioServer] } }, [], [stdioServer],
    NewMcpClient allOkEnv [stdioServer]⟩

theorem claim_C9_witness :
    (selectMcpServers mSel allOkEnv [Key.q]).1.McpServers = [] ∧
    (selectMcpServers mSel allOkEnv [Key.q]).2 = SelectOutcome.updated :=
  ⟨(claim_C9 mSel allOkEnv [] Key.q (Or.inl rfl) (by simp)
      (List.cons_ne_nil stdioServer [])).2.2.1,
   (claim_C9 mSel allOkEnv [] Key.q (Or.inl rfl) (by simp)
      (List.cons_ne_nil stdioServer [])).2.2.2⟩

end TmuxAI

namespace TmuxAI

/-! ## Slash-command dispatch (Manager.ProcessSubCommand,
src/internal/chat_command.go lines 44-138) -/

/-- Whitespace recognized by the splitting/trimming model (the blank
characters relevant to typed commands). -/
def isGoSpace (c : Char) : Bool :=
  c = ' ' ∨ c = '\t' ∨ c = '\n' ∨ c = '\r'

/-- Embeds `strings.TrimSpace`: drop leading and trailing whitespace. -/
def trimSpace (s : Str) : Str :=
  ((s.dropWhile isGoSpace).reverse.dropWhile isGoSpace).reverse

/-- Embeds `strings.ToLower` for the ASCII range the command words use. -/
def goToLower (s : Str) : Str := s.map Char.toLower

/-- Embeds `strings.Fields`: the whitespace-separated words, no empties. -/
def fieldsAux : Str → Str → List Str
  | cur, [] => if cur = [] then [] else [cur.reverse]
  | cur, c :: rest =>
    if isGoSpace c then
      if cur = [] then fieldsAux [] rest
      else cur.reverse :: fieldsAux [] rest
    else fieldsAux (c :: cur) rest

def fields (s : Str) : List Str := fieldsAux [] s

/-- Embeds `strings.Join(parts, " ")`. -/
def joinSpace (parts : List Str) : Str := List.intercalate (str (" ")) parts

/-- Embeds `prefixMatch(command, target) = strings.HasPrefix(target,
command)`: the typed word starts the full command name. -/
def prefixMatch (command target : Str) : Bool := decide (command <+: target)

/-- Which branch of `ProcessSubCommand` ran, with the data each branch
consumes. -/
inductive DispatchResult where
  | empty
  | help
  | info
  | prepare
  | clear
  | reset
  | exitApp
  | squash
  | watchStart (desc : Str)
  | watchUsage
  | config (args : List Str)
  | mcp (args : List Str)
  | unknown (word : Str)
  deriving DecidableEq

/-- Embeds `Manager.ProcessSubCommand`: lower-case and trim the input,
split it into words, then try the command names in the source's switch
order with `prefixMatch` on the first word (the `/watch` case also
accepts the literal word `/w` and re-splits the original input for the
description). -/
def ProcessSubCommand (command : Str) : DispatchResult :=
  let commandLower := goToLower (trimSpace command)
  match fields commandLower with
  | [] => DispatchResult.empty
  | firstWord :: restArgs =>
    if prefixMatch firstWord (str ("/help")) then DispatchResult.help
    else if prefixMatch firstWord (str ("/info")) then DispatchResult.info
    else if prefixMatch firstWord (str ("/prepare")) then DispatchResult.prepare
    else if prefixMatch firstWord (str ("/clear")) then DispatchResult.clear
    else if prefixMatch firstWord (str ("/reset")) then DispatchResult.reset
    else if prefixMatch firstWord (str ("/exit")) then DispatchResult.exitApp
    else if prefixMatch firstWord (str ("/squash")) then DispatchResult.squash
    else if prefixMatch firstWord (str ("/watch")) ∨ firstWord = str ("/w") then
      match fields command with
      | _ :: arg1 :: more => DispatchResult.watchStart (joinSpace (arg1 :: more))
      | _ => DispatchResult.watchUsage
    else if prefixMatch firstWord (str ("/config")) then DispatchResult.config restArgs
    else if prefixMatch firstWord (str ("/mcp")) then DispatchResult.mcp restArgs
    else DispatchResult.unknown firstWord

/-- The command a dispatch outcome belongs to (both watch outcomes are
the `/watch` branch). -/
inductive BranchTag where
  | empty
  | help
  | info
  | prepare
  | clear
  | reset
  | exitApp
  | squash
  | watch
  | config
  | mcp
  | unknown
  deriving DecidableEq

def branchTagOf : DispatchResult → BranchTag
  | DispatchResult.empty => BranchTag.empty
  | DispatchResult.help => BranchTag.help
  | DispatchResult.info => BranchTag.info
  | DispatchResult.prepare => BranchTag.prepare
  | DispatchResult.clear => BranchTag.clear
  | DispatchResult.reset => BranchTag.reset
  | DispatchResult.exitApp => BranchTag.exitApp
  | DispatchResult.squash => BranchTag.squash
  | DispatchResult.watchStart _ => BranchTag.watch
  | DispatchResult.watchUsage => BranchTag.watch
  | DispatchResult.config _ => BranchTag.config
  | DispatchResult.mcp _ => BranchTag.mcp
  | DispatchResult.unknown _ => BranchTag.unknown

/-- The claim's fixed testing order of the command names. -/
def dispatchOrder : List (Str × BranchTag) :=
  [(str ("/help"), BranchTag.help), (str ("/info"), BranchTag.info),
   (str ("/prepare"), BranchTag.prepare), (str ("/clear"), BranchTag.clear),
   (str ("/reset"), BranchTag.reset), (str ("/exit"), BranchTag.exitApp),
   (str ("/squash"), BranchTag.squash), (str ("/watch"), BranchTag.watch),
   (str ("/config"), BranchTag.config), (str ("/mcp"), BranchTag.mcp)]

/-- Spec-side definition: the earliest command name in the given order
that the typed word starts. -/
def firstMatchTag : List (Str × BranchTag) → Str → BranchTag
  | [], _ => BranchTag.unknown
  | (target, tag) :: rest, w =>
    if prefixMatch w target then tag else firstMatchTag rest w

def specDispatchTag (w : Str) : BranchTag := firstMatchTag dispatchOrder w

end TmuxAI

namespace TmuxAI

/-- C10: dispatch matches the first word of the (trimmed, lower-cased)
input as a string prefix of the command names, tested in the fixed order
/help, /info, /prepare, /clear, /reset, /exit, /squash, /watch, /config,
/mcp, so an ambiguous word goes to the earliest match in that order; in
particular `/` alone shows help, `/c` clears (not /config), and `/e`
exits. -/
theorem claim_C10 :
    (∀ (command firstWord : Str) (restArgs : List Str),
      fields (goToLower (trimSpace command)) = firstWord :: restArgs →
      branchTagOf (ProcessSubCommand command) = specDispatchTag firstWord) ∧
    ProcessSubCommand (str ("/")) = DispatchResult.help ∧
    ProcessSubCommand (str ("/c")) = DispatchResult.clear ∧
    ProcessSubCommand (str ("/e")) = DispatchResult.exitApp := by
  refine ⟨?_, by decide, by decide, by decide⟩
  intro command firstWord restArgs hfields
  simp only [ProcessSubCommand]
  rw [hfields]
  simp only [specDispatchTag, dispatchOrder, firstMatchTag]
  cases h1 : prefixMatch firstWord (str ("/help"))
  · cases h2 : prefixMatch firstWord (str ("/info"))
    · cases h3 : prefixMatch firstWord (str ("/prepare"))
      · cases h4 : prefixMatch firstWord (str ("/clear"))
        · cases h5 : prefixMatch firstWord (str ("/reset"))
          · cases h6 : prefixMatch firstWord (str ("/exit"))
            · cases h7 : prefixMatch firstWord (str ("/squash"))
              · cases h8 : prefixMatch firstWord (str ("/watch"))
                · by_cases h8b : firstWord = str ("/w")
                  · rw [h8b] at h8
                    exact absurd h8 (by decide)
                  · rw [if_neg (show ¬(false = true ∨ firstWord = str ("/w")) from by
                      rintro (hh | hh)
                      · exact absurd hh (by simp)
                      · exact h8b hh)]
                    cases h9 : prefixMatch firstWord (str ("/config"))
                    · cases h10 : prefixMatch firstWord (str ("/mcp"))
                      · rfl
                      · rfl
                    · rfl
                · rcases hfc : fields command with _ | ⟨w1, ws⟩
                  · rfl
                  · rcases ws with _ | ⟨w2, ws2⟩ <;> rfl
              · rfl
            · rfl
          · rfl
        · rfl
      · rfl
    · rfl
  · rfl

theorem claim_C10_witness :
    branchTagOf (ProcessSubCommand (str ("/s"))) = specDispatchTag (str ("/s")) ∧
    specDispatchTag (str ("/s")) = BranchTag.squash :=
  ⟨claim_C10.1 (str ("/s")) (str ("/s")) [] (by decide), by decide⟩

end TmuxAI
